import Mathlib

/-!
Verification of the AlleFarma stock ledger and allocation engine.

This file is a shallow embedding, in Lean 4, of the batch-ledger core of the
pharmacy back-office found under `src/backend/src`:

* domain entities `Lote` (batch) and `Medicamento` (medication), with the
  validation rules of their Python constructors (`Lote.__post_init__`);
* the in-memory repositories (`LoteRepositoryMemory`), whose Python `dict`
  (insertion ordered, keyed by the batch id) is embedded as a list of batches
  together with the id counter `proximo_id`;
* the allocation use cases `AdicionarEstoqueUseCase.execute` and
  `RemoverEstoqueUseCase.execute`, the stock service
  (`EstoqueServiceMemory.registrar_saida`, `consultar_estoque_atual`), the
  scans (`VerificarEstoqueBaixoUseCase.execute`,
  `MonitorarProdutosVencendoUseCase.execute`) and the event dispatcher
  (`EventDispatcher.notificar`).

Dates are embedded as integers (a day count), so `date.today()` becomes an
explicit parameter `hoje`; quantities, ids and money-free counters are `Int`.
Python exceptions become `Except` values: a raising method returns
`Except DomainError _`, and a use case that mutates the repository returns the
repository it leaves behind in both the normal and the raising branch, the way
the Python caller observes it after a raise.  Python `list.sort(key=...)` is a
stable sort; it is embedded as a structurally recursive stable insertion sort
(`ordenar`), whose output agrees with every stable sort for a total transitive
comparison.
-/

namespace AlleFarma

/-- Status strings returned by the use cases ("OK" / "ATENCAO" / "CRITICO"). -/
inductive Status where
  | OK
  | ATENCAO
  | CRITICO
  deriving DecidableEq

/-- Catalog entry (src/backend/src/domain/entities/medicamento.py).  Only the
fields read by the verified stock operations are kept; price, description and
the prescription flag are never consulted by them. -/
structure Medicamento where
  id : Int
  nome : String
  principio_ativo : String
  estoque_minimo : Int
  deriving DecidableEq

/-- Batch entity (src/backend/src/domain/entities/lote.py). -/
structure Lote where
  numero_lote : String
  medicamento_id : Int
  quantidade : Int
  data_fabricacao : Int
  data_validade : Int
  fornecedor : String
  id : Option Int
  deriving DecidableEq

/-- Distinct `ValueError`s of the Python code, one constructor per message,
carrying the data interpolated into the message. -/
inductive DomainError where
  | numeroLoteObrigatorio
  | numeroLoteCurto
  | quantidadeNaoPositiva
  | fabricacaoNoFuturo
  | validadeNaoPosterior
  | validadeVencida
  | fornecedorObrigatorio
  | fornecedorCurto
  | loteSemId
  | loteNaoEncontrado (id : Int)
  | quantidadeInvalida
  | medicamentoNaoEncontrado (id : Int)
  | estoqueInsuficiente (disponivel solicitado : Int)
  | estoqueInsuficienteMedicamento (medicamento_id : Int)
  | quantidadeRetirarInvalida
  | quantidadeInsuficienteLote (disponivel solicitado : Int)
  deriving DecidableEq

/-- Lote.esta_vencido: `date.today() > self.data_validade`. -/
def Lote.esta_vencido (l : Lote) (hoje : Int) : Bool :=
  decide (hoje > l.data_validade)

/-- Python's `not s or s.strip() == ""`: the string has no non-whitespace
character.  (`str.strip()` is empty exactly when every character is
whitespace, and the empty string trivially satisfies it.) -/
def stringEmBranco (s : String) : Bool :=
  s.data.all (fun c => c.isWhitespace)

/-- Lote.__post_init__: the validations run by the Python dataclass
constructor, in source order (`_validar_numero_lote`, `_validar_quantidade`,
`_validar_datas`, `_validar_fornecedor`).  A fresh batch carries `id = none`;
the repository assigns the id. -/
def mkLote (hoje : Int) (numero_lote : String) (medicamento_id quantidade : Int)
    (data_fabricacao data_validade : Int) (fornecedor : String) :
    Except DomainError Lote :=
  if stringEmBranco numero_lote then .error .numeroLoteObrigatorio
  else if numero_lote.length < 3 then .error .numeroLoteCurto
  else if quantidade ≤ 0 then .error .quantidadeNaoPositiva
  else if data_fabricacao > hoje then .error .fabricacaoNoFuturo
  else if data_validade ≤ data_fabricacao then .error .validadeNaoPosterior
  else if data_validade ≤ hoje then .error .validadeVencida
  else if stringEmBranco fornecedor then .error .fornecedorObrigatorio
  else if fornecedor.length < 3 then .error .fornecedorCurto
  else .ok ⟨numero_lote, medicamento_id, quantidade, data_fabricacao,
    data_validade, fornecedor, none⟩

/-- In-memory batch repository
(src/backend/src/adapters/repositories/lote_repository_memory.py).  The Python
`dict[int, Lote]` preserves insertion order and is keyed by `lote.id`; it is
embedded as the ordered list of its values plus the id counter. -/
structure LoteRepositoryMemory where
  lotes : List Lote
  proximo_id : Int
  deriving DecidableEq

/-- Store `self._lotes[lote.id] = lote` on the ordered-dict embedding: replace
in place when the key is present, append otherwise. -/
def dictPut (lotes : List Lote) (l : Lote) : List Lote :=
  if lotes.any (fun x => x.id == l.id) then
    lotes.map (fun x => if x.id == l.id then l else x)
  else
    lotes ++ [l]

/-- LoteRepositoryMemory.salvar: assign `proximo_id` when the batch has no id,
then store it under its id. -/
def LoteRepositoryMemory.salvar (repo : LoteRepositoryMemory) (lote : Lote) :
    Lote × LoteRepositoryMemory :=
  match lote.id with
  | none =>
      let salvo := { lote with id := some repo.proximo_id }
      (salvo, ⟨dictPut repo.lotes salvo, repo.proximo_id + 1⟩)
  | some _ => (lote, ⟨dictPut repo.lotes lote, repo.proximo_id⟩)

/-- LoteRepositoryMemory.listar_todos: the dict values in order. -/
def LoteRepositoryMemory.listar_todos (repo : LoteRepositoryMemory) : List Lote :=
  repo.lotes

/-- LoteRepositoryMemory.buscar_por_medicamento. -/
def LoteRepositoryMemory.buscar_por_medicamento (repo : LoteRepositoryMemory)
    (medicamento_id : Int) : List Lote :=
  repo.lotes.filter (fun l => l.medicamento_id == medicamento_id)

/-- LoteRepositoryMemory.listar_vencendo_em: batches with
`data_validade <= hoje + dias` and `data_validade >= hoje`. -/
def LoteRepositoryMemory.listar_vencendo_em (repo : LoteRepositoryMemory)
    (hoje dias : Int) : List Lote :=
  let data_limite := hoje + dias
  repo.lotes.filter (fun l =>
    decide (l.data_validade ≤ data_limite) && decide (l.data_validade ≥ hoje))

/-- LoteRepositoryMemory.atualizar: requires an id that is a key of the dict,
then stores the batch under it. -/
def LoteRepositoryMemory.atualizar (repo : LoteRepositoryMemory) (l : Lote) :
    Except DomainError (Lote × LoteRepositoryMemory) :=
  match l.id with
  | none => .error .loteSemId
  | some i =>
      if repo.lotes.any (fun x => x.id == some i) then
        .ok (l, ⟨dictPut repo.lotes l, repo.proximo_id⟩)
      else
        .error (.loteNaoEncontrado i)

/-- MedicamentoRepositoryMemory.buscar_por_id: `self._medicamentos.get(id)`.
The catalog dict is embedded as a list of medications with distinct ids. -/
def buscar_medicamento_por_id (medicamentos : List Medicamento) (id : Int) :
    Option Medicamento :=
  medicamentos.find? (fun m => m.id == id)

/-! ## Stable sort

Python's `list.sort(key=...)` is stable.  For a total transitive boolean
comparison every stable sort produces the same list, so the in-place sorts of
the use cases are embedded as a stable insertion sort. -/

/-- Insert `a` in front of the first element `b` with `le a b`; equal elements
already present stay in front of `a`, which is what stability demands for an
element arriving later. -/
def inserirOrdenado (le : α → α → Bool) (a : α) : List α → List α
  | [] => [a]
  | b :: bs => if le a b then a :: b :: bs else b :: inserirOrdenado le a bs

/-- Stable insertion sort. -/
def ordenar (le : α → α → Bool) : List α → List α
  | [] => []
  | x :: xs => inserirOrdenado le x (ordenar le xs)

/-! ## Allocation engine -/

/-- Entry of the `lotes_afetados` breakdown built by
RemoverEstoqueUseCase.execute. -/
structure LoteAfetado where
  lote_id : Option Int
  numero_lote : String
  quantidade_removida : Int
  quantidade_restante : Int
  deriving DecidableEq

/-- Result dictionary of RemoverEstoqueUseCase.execute. -/
structure RemocaoResultado where
  medicamento_id : Int
  medicamento_nome : String
  quantidade_removida : Int
  lotes_afetados : List LoteAfetado
  estoque_atual : Int
  estoque_minimo : Int
  status : Status
  deriving DecidableEq

/-- Eligible batches of RemoverEstoqueUseCase.execute (its step 3): batches of
the medication with `quantidade > 0` whose expiry is strictly in the future. -/
def lotes_disponiveis (repo : LoteRepositoryMemory) (hoje medicamento_id : Int) :
    List Lote :=
  (repo.buscar_por_medicamento medicamento_id).filter (fun l =>
    decide (l.quantidade > 0) && decide (l.data_validade > hoje))

/-- Eligible batches sorted by ascending expiry date
(`lotes_disponiveis.sort(key=lambda x: x.data_validade)`). -/
def lotes_ordenados_por_validade (repo : LoteRepositoryMemory)
    (hoje medicamento_id : Int) : List Lote :=
  ordenar (fun a b => decide (a.data_validade ≤ b.data_validade))
    (lotes_disponiveis repo hoje medicamento_id)

/-- Depletion loop of RemoverEstoqueUseCase.execute (its step 6): walk the
sorted eligible batches, take `min(remaining, batch.quantity)` from each,
persist it through `atualizar` and record the breakdown entry.  The repository
reached so far is returned even when `atualizar` raises, the way the Python
caller observes it after an exception. -/
def remover_dos_lotes : List Lote → Int → LoteRepositoryMemory →
    List LoteAfetado →
    Except DomainError (List LoteAfetado) × LoteRepositoryMemory
  | [], _, repo, acc => (.ok acc, repo)
  | lote :: resto, quantidade_restante, repo, acc =>
    if quantidade_restante == 0 then (.ok acc, repo)
    else
      let quantidade_remover := min quantidade_restante lote.quantidade
      let lote_baixado := { lote with quantidade := lote.quantidade - quantidade_remover }
      match repo.atualizar lote_baixado with
      | .error e => (.error e, repo)
      | .ok (lote_atualizado, repo2) =>
          remover_dos_lotes resto (quantidade_restante - quantidade_remover) repo2
            (acc ++ [⟨lote_atualizado.id, lote_atualizado.numero_lote,
              quantidade_remover, lote_atualizado.quantidade⟩])

/-- RemoverEstoqueUseCase.execute
(src/backend/src/application/use_cases/remover_estoque_use_case.py).  The
second component is the repository left behind by the call, in the raising
branches as well. -/
def removerEstoque (medicamentos : List Medicamento)
    (repo : LoteRepositoryMemory) (hoje medicamento_id quantidade : Int) :
    Except DomainError RemocaoResultado × LoteRepositoryMemory :=
  if quantidade ≤ 0 then (.error .quantidadeInvalida, repo)
  else
    match buscar_medicamento_por_id medicamentos medicamento_id with
    | none => (.error (.medicamentoNaoEncontrado medicamento_id), repo)
    | some medicamento =>
      let ordenados := lotes_ordenados_por_validade repo hoje medicamento_id
      let estoque_disponivel := (ordenados.map (·.quantidade)).sum
      if estoque_disponivel < quantidade then
        (.error (.estoqueInsuficiente estoque_disponivel quantidade), repo)
      else
        match remover_dos_lotes ordenados quantidade repo [] with
        | (.error e, repo2) => (.error e, repo2)
        | (.ok lotes_afetados, repo2) =>
          let todos_lotes := repo2.buscar_por_medicamento medicamento_id
          let estoque_total :=
            ((todos_lotes.filter (fun l => decide (l.data_validade > hoje))).map
              (·.quantidade)).sum
          let status :=
            if estoque_total == 0 then Status.CRITICO
            else if estoque_total < medicamento.estoque_minimo then Status.ATENCAO
            else Status.OK
          (.ok ⟨medicamento.id, medicamento.nome, quantidade, lotes_afetados,
            estoque_total, medicamento.estoque_minimo, status⟩, repo2)

/-- Result dictionary of AdicionarEstoqueUseCase.execute. -/
structure AdicaoResultado where
  medicamento_id : Int
  medicamento_nome : String
  lote_id : Option Int
  numero_lote : String
  lote_quantidade : Int
  estoque_atual : Int
  estoque_minimo : Int
  status : Status
  deriving DecidableEq

/-- AdicionarEstoqueUseCase.execute
(src/backend/src/application/use_cases/adicionar_estoque_use_case.py).  The
dates arrive already converted; the ISO-format parsing of the HTTP strings is
outside this core.  Note step 7 of the source sums the quantities of ALL
batches of the medication, with no expiry filter. -/
def adicionarEstoque (medicamentos : List Medicamento)
    (repo : LoteRepositoryMemory) (hoje medicamento_id quantidade : Int)
    (numero_lote : String) (data_fabricacao data_validade : Int)
    (fornecedor : String) :
    Except DomainError AdicaoResultado × LoteRepositoryMemory :=
  if quantidade ≤ 0 then (.error .quantidadeInvalida, repo)
  else
    match buscar_medicamento_por_id medicamentos medicamento_id with
    | none => (.error (.medicamentoNaoEncontrado medicamento_id), repo)
    | some medicamento =>
      if data_validade ≤ data_fabricacao then (.error .validadeNaoPosterior, repo)
      else if data_validade ≤ hoje then (.error .validadeVencida, repo)
      else
        match mkLote hoje numero_lote medicamento_id quantidade data_fabricacao
            data_validade fornecedor with
        | .error e => (.error e, repo)
        | .ok lote =>
          let par := repo.salvar lote
          let todos_lotes := par.2.buscar_por_medicamento medicamento_id
          let estoque_total := (todos_lotes.map (·.quantidade)).sum
          let status :=
            if estoque_total < medicamento.estoque_minimo then Status.ATENCAO
            else Status.OK
          (.ok ⟨medicamento.id, medicamento.nome, par.1.id, par.1.numero_lote,
            par.1.quantidade, estoque_total, medicamento.estoque_minimo,
            status⟩, par.2)

/-! ## Availability aggregator -/

/-- Availability used by the low-stock scan and by step 7 of the removal use
case: sum of quantities over the medication's batches with
`data_validade > hoje` (VerificarEstoqueBaixoUseCase.execute, lines 73-76). -/
def estoque_disponivel_nao_vencido (repo : LoteRepositoryMemory)
    (hoje medicamento_id : Int) : Int :=
  (((repo.buscar_por_medicamento medicamento_id).filter (fun l =>
    decide (l.data_validade > hoje))).map (·.quantidade)).sum

/-- Result dictionary of EstoqueServiceMemory.consultar_estoque_atual. -/
structure EstoqueInfo where
  estoque_total : Int
  estoque_disponivel : Int
  estoque_vencido : Int
  quantidade_lotes : Nat
  deriving DecidableEq

/-- EstoqueServiceMemory.consultar_estoque_atual
(src/backend/src/adapters/services/estoque_service_memory.py): the available
and expired sums are split by `Lote.esta_vencido`. -/
def consultarEstoqueAtual (repo : LoteRepositoryMemory)
    (hoje medicamento_id : Int) : EstoqueInfo :=
  let lotes := repo.buscar_por_medicamento medicamento_id
  { estoque_total := (lotes.map (·.quantidade)).sum
    estoque_disponivel :=
      ((lotes.filter (fun l => !(l.esta_vencido hoje))).map (·.quantidade)).sum
    estoque_vencido :=
      ((lotes.filter (fun l => l.esta_vencido hoje)).map (·.quantidade)).sum
    quantidade_lotes := lotes.length }

/-! ## Stock service (EstoqueServiceMemory) -/

/-- Movement kinds recorded in `self._movimentacoes`. -/
inductive TipoMovimentacao where
  | ENTRADA
  | SAIDA
  deriving DecidableEq

/-- Movement record appended by the stock service. -/
structure Movimentacao where
  tipo : TipoMovimentacao
  medicamento_id : Int
  lote_id : Option Int
  quantidade : Int
  deriving DecidableEq

/-- Lote.retirar_quantidade: validates and subtracts. -/
def Lote.retirar_quantidade (l : Lote) (quantidade : Int) :
    Except DomainError Lote :=
  if quantidade ≤ 0 then .error .quantidadeRetirarInvalida
  else if quantidade > l.quantidade then
    .error (.quantidadeInsuficienteLote l.quantidade quantidade)
  else .ok { l with quantidade := l.quantidade - quantidade }

/-- EstoqueServiceMemory.verificar_disponibilidade: the non-expired sum
(via `esta_vencido`, so expiry today still counts) reaches the requested
quantity. -/
def verificarDisponibilidade (repo : LoteRepositoryMemory)
    (hoje medicamento_id quantidade : Int) : Bool :=
  let lotes := repo.buscar_por_medicamento medicamento_id
  let quantidade_disponivel :=
    ((lotes.filter (fun l => !(l.esta_vencido hoje))).map (·.quantidade)).sum
  decide (quantidade_disponivel ≥ quantidade)

/-- Depletion loop of EstoqueServiceMemory.registrar_saida: walk the batches
sorted by MANUFACTURE date, withdraw `min(remaining, batch.quantity)` through
`retirar_quantidade`, persist, and append a SAIDA movement. -/
def registrar_saida_dos_lotes : List Lote → Int → Int → LoteRepositoryMemory →
    List Movimentacao →
    Except DomainError Unit × LoteRepositoryMemory × List Movimentacao
  | [], _, _, repo, movimentacoes => (.ok (), repo, movimentacoes)
  | lote :: resto, medicamento_id, quantidade_restante, repo, movimentacoes =>
    if quantidade_restante == 0 then (.ok (), repo, movimentacoes)
    else
      let quantidade_retirar := min quantidade_restante lote.quantidade
      match lote.retirar_quantidade quantidade_retirar with
      | .error e => (.error e, repo, movimentacoes)
      | .ok lote_baixado =>
        match repo.atualizar lote_baixado with
        | .error e => (.error e, repo, movimentacoes)
        | .ok (_, repo2) =>
            registrar_saida_dos_lotes resto medicamento_id
              (quantidade_restante - quantidade_retirar) repo2
              (movimentacoes ++
                [⟨.SAIDA, medicamento_id, lote.id, quantidade_retirar⟩])

/-- EstoqueServiceMemory.registrar_saida
(src/backend/src/adapters/services/estoque_service_memory.py): after the
availability check, the eligible batches are sorted by ascending
`data_fabricacao` ("FIFO - lotes mais antigos primeiro") and depleted in that
order. -/
def registrarSaida (repo : LoteRepositoryMemory)
    (hoje medicamento_id quantidade : Int) (movimentacoes : List Movimentacao) :
    Except DomainError Unit × LoteRepositoryMemory × List Movimentacao :=
  if quantidade ≤ 0 then (.error .quantidadeInvalida, repo, movimentacoes)
  else if !(verificarDisponibilidade repo hoje medicamento_id quantidade) then
    (.error (.estoqueInsuficienteMedicamento medicamento_id), repo, movimentacoes)
  else
    let lotes := repo.buscar_por_medicamento medicamento_id
    let lotes_com_saldo := lotes.filter (fun l =>
      !(l.esta_vencido hoje) && decide (l.quantidade > 0))
    let ordenados :=
      ordenar (fun a b => decide (a.data_fabricacao ≤ b.data_fabricacao))
        lotes_com_saldo
    registrar_saida_dos_lotes ordenados medicamento_id quantidade repo
      movimentacoes

/-! ## Scans and events -/

/-- Payload of EstoqueBaixoEvent (src/backend/src/domain/events/estoque_events.py). -/
structure EstoqueBaixoEvent where
  medicamento_id : Int
  nome_medicamento : String
  estoque_atual : Int
  estoque_minimo : Int
  deriving DecidableEq

/-- Payload of ProdutoVencendoEvent. -/
structure ProdutoVencendoEvent where
  medicamento_id : Int
  nome_medicamento : String
  lote_id : Option Int
  numero_lote : String
  data_validade : Int
  dias_ate_vencer : Int
  quantidade : Int
  deriving DecidableEq

/-- Alert dictionary built by VerificarEstoqueBaixoUseCase.execute. -/
structure Alerta where
  medicamento_id : Int
  nome : String
  principio_ativo : String
  estoque_atual : Int
  estoque_minimo : Int
  diferenca : Int
  status : Status
  prioridade : Int
  deriving DecidableEq

/-- Scan loop of VerificarEstoqueBaixoUseCase.execute (its step 3): per
medication, availability zero gives a CRITICO alert with priority 1,
availability below the minimum an ATENCAO alert with priority 2; each appended
alert dispatches one EstoqueBaixoEvent, in scan order. -/
def verificar_estoque_baixo_varredura (repo : LoteRepositoryMemory)
    (hoje : Int) : List Medicamento → List Alerta × List EstoqueBaixoEvent
  | [] => ([], [])
  | medicamento :: resto =>
    let par := verificar_estoque_baixo_varredura repo hoje resto
    let estoque_disponivel :=
      estoque_disponivel_nao_vencido repo hoje medicamento.id
    if estoque_disponivel == 0 then
      (⟨medicamento.id, medicamento.nome, medicamento.principio_ativo,
        estoque_disponivel, medicamento.estoque_minimo,
        medicamento.estoque_minimo - estoque_disponivel, Status.CRITICO, 1⟩
        :: par.1,
       ⟨medicamento.id, medicamento.nome, estoque_disponivel,
        medicamento.estoque_minimo⟩ :: par.2)
    else if estoque_disponivel < medicamento.estoque_minimo then
      (⟨medicamento.id, medicamento.nome, medicamento.principio_ativo,
        estoque_disponivel, medicamento.estoque_minimo,
        medicamento.estoque_minimo - estoque_disponivel, Status.ATENCAO, 2⟩
        :: par.1,
       ⟨medicamento.id, medicamento.nome, estoque_disponivel,
        medicamento.estoque_minimo⟩ :: par.2)
    else par

/-- Sort comparison of the alert list:
`alertas.sort(key=lambda x: (x["prioridade"], -x["diferenca"]))`. -/
def ordemAlerta (a b : Alerta) : Bool :=
  decide (a.prioridade < b.prioridade) ||
    (decide (a.prioridade = b.prioridade) && decide (-a.diferenca ≤ -b.diferenca))

/-- VerificarEstoqueBaixoUseCase.execute
(src/backend/src/application/use_cases/verificar_estoque_baixo_use_case.py):
runs the scan over all medications, then sorts the alert list; the events were
already dispatched during the scan, so they keep scan order. -/
def verificarEstoqueBaixo (medicamentos : List Medicamento)
    (repo : LoteRepositoryMemory) (hoje : Int) :
    List Alerta × List EstoqueBaixoEvent :=
  let par := verificar_estoque_baixo_varredura repo hoje medicamentos
  (ordenar ordemAlerta par.1, par.2)

/-- Entry of the `lotes_vencendo` list built by
MonitorarProdutosVencendoUseCase.execute; the whole batch is kept so the
selection can be stated about it. -/
structure VencendoItem where
  medicamento : Medicamento
  lote : Lote
  dias_ate_vencer : Int
  urgencia : Status
  deriving DecidableEq

/-- Collection loop of MonitorarProdutosVencendoUseCase.execute (its step 3):
skip batches with `data_validade <= hoje`, keep those with
`data_validade <= data_limite` whose medication exists, dispatching one
ProdutoVencendoEvent per kept batch. -/
def monitorar_coleta (medicamentos : List Medicamento) (hoje data_limite : Int) :
    List Lote → List VencendoItem × List ProdutoVencendoEvent
  | [] => ([], [])
  | lote :: resto =>
    let par := monitorar_coleta medicamentos hoje data_limite resto
    if lote.data_validade ≤ hoje then par
    else if lote.data_validade ≤ data_limite then
      let dias_ate_vencer := lote.data_validade - hoje
      match buscar_medicamento_por_id medicamentos lote.medicamento_id with
      | none => par
      | some medicamento =>
          (⟨medicamento, lote, dias_ate_vencer,
            if dias_ate_vencer ≤ 7 then Status.CRITICO else Status.ATENCAO⟩
            :: par.1,
           ⟨medicamento.id, medicamento.nome, lote.id, lote.numero_lote,
            lote.data_validade, dias_ate_vencer, lote.quantidade⟩ :: par.2)
    else par

/-- Result of MonitorarProdutosVencendoUseCase.execute. -/
structure MonitoramentoResultado where
  periodo_monitorado_dias : Int
  total_lotes_vencendo : Nat
  lotes : List VencendoItem
  eventos_disparados : Nat
  deriving DecidableEq

/-- MonitorarProdutosVencendoUseCase.execute
(src/backend/src/application/use_cases/monitorar_produtos_vencendo_use_case.py):
collect over all batches, then sort by `dias_ate_vencer`. -/
def monitorarProdutosVencendo (medicamentos : List Medicamento)
    (repo : LoteRepositoryMemory) (hoje dias : Int) :
    MonitoramentoResultado × List ProdutoVencendoEvent :=
  let data_limite := hoje + dias
  let par := monitorar_coleta medicamentos hoje data_limite repo.listar_todos
  let ordenados :=
    ordenar (fun a b => decide (a.dias_ate_vencer ≤ b.dias_ate_vencer)) par.1
  (⟨dias, ordenados.length, ordenados, par.2.length⟩, par.2)

/-! ## Event dispatcher (src/backend/src/domain/events/event_dispatcher.py) -/

/-- Event kinds: the Python dispatcher keys its registry by the event's class. -/
inductive TipoEvento where
  | estoqueBaixo
  | produtoVencendo
  deriving DecidableEq

/-- Dispatched event, a tagged payload; `type(evento)` becomes `Evento.tipo`. -/
inductive Evento where
  | estoqueBaixo (payload : EstoqueBaixoEvent)
  | produtoVencendo (payload : ProdutoVencendoEvent)
  deriving DecidableEq

/-- Class of a dispatched event. -/
def Evento.tipo : Evento → TipoEvento
  | .estoqueBaixo _ => .estoqueBaixo
  | .produtoVencendo _ => .produtoVencendo

/-- Registered observer: a named handler whose `notificar(evento)` call either
returns or raises (the raised message is the `Except.error` value). -/
structure Observador where
  nome : String
  handler : Evento → Except String Unit

/-- Registry of the dispatcher: `self._observers`, mapping an event kind to
its ordered observer list (`dict.get(tipo_evento, [])`). -/
def observersPara (registro : List (TipoEvento × List Observador))
    (tipo : TipoEvento) : List Observador :=
  match registro.find? (fun par => par.1 == tipo) with
  | none => []
  | some par => par.2

/-- Outcome of one observer invocation inside the dispatch loop. -/
inductive ChamadaObservador where
  | sucesso (nome : String)
  | falha (nome : String) (mensagem : String)
  deriving DecidableEq

/-- Dispatch loop of EventDispatcher.notificar: each observer is invoked inside
`try/except Exception`, so a raising observer contributes a logged failure and
the loop continues with the remaining observers. -/
def notificar_observers (evento : Evento) :
    List Observador → List ChamadaObservador
  | [] => []
  | observador :: resto =>
    (match observador.handler evento with
     | .ok _ => ChamadaObservador.sucesso observador.nome
     | .error mensagem => ChamadaObservador.falha observador.nome mensagem)
      :: notificar_observers evento resto

/-- EventDispatcher.notificar: resolve the observers registered for the
event's kind; with none, log and return (a no-op); otherwise invoke each in
registration order with per-observer failure isolation.  The returned list of
call outcomes is the observable trace of the dispatch; the function itself
never carries an error out. -/
def notificar (registro : List (TipoEvento × List Observador))
    (evento : Evento) : List ChamadaObservador :=
  let observers := observersPara registro evento.tipo
  if observers.isEmpty then []
  else notificar_observers evento observers

/-- Outcome the dispatch loop records for one observer; used to state what
`notificar` produces observer by observer. -/
def resultadoDe (observador : Observador) (evento : Evento) : ChamadaObservador :=
  match observador.handler evento with
  | .ok _ => ChamadaObservador.sucesso observador.nome
  | .error mensagem => ChamadaObservador.falha observador.nome mensagem

/-! ## Concrete fixtures

Small catalog/ledger states used to evaluate the operations at concrete
inputs.  Day numbers are relative to `hoje = 0`. -/

/-- Catalog with one medication, minimum stock 10. -/
def medicamentosExemplo : List Medicamento :=
  [⟨1, ("Dipirona"), ("dipirona sodica"), 10⟩]

/-- Catalog with one medication, minimum stock 7. -/
def medicamentosMinimoSete : List Medicamento :=
  [⟨1, ("Dipirona"), ("dipirona sodica"), 7⟩]

/-- Batch expiring in 10 days, manufactured yesterday. -/
def loteProximoVencimento : Lote :=
  ⟨("LOTEA"), 1, 5, -1, 10, ("Fornecedor A"), some 1⟩

/-- Batch expiring in 100 days, manufactured 30 days ago. -/
def loteVencimentoDistante : Lote :=
  ⟨("LOTEB"), 1, 5, -30, 100, ("Fornecedor B"), some 2⟩

/-- Ledger holding the two batches above. -/
def repoExemplo : LoteRepositoryMemory :=
  ⟨[loteProximoVencimento, loteVencimentoDistante], 3⟩

/-- Batch whose expiry date is exactly today. -/
def loteVenceHoje : Lote := ⟨("HOJE1"), 1, 5, -10, 0, ("Acme"), some 1⟩

/-- Ledger holding only the batch expiring today. -/
def repoLoteHoje : LoteRepositoryMemory := ⟨[loteVenceHoje], 2⟩

/-- Ledger holding one already-expired batch (expiry 10 days ago, qty 3). -/
def repoComVencido : LoteRepositoryMemory :=
  ⟨[⟨("VELHO1"), 1, 3, -100, -10, ("Acme"), some 1⟩], 2⟩

/-- Fresh batch accepted by the entity validation (lot number "ABC123"). -/
def loteDuplicado1 : Lote := ⟨("ABC123"), 1, 5, -1, 10, ("Acme"), none⟩

/-- Second fresh batch with the same lot number "ABC123". -/
def loteDuplicado2 : Lote := ⟨("ABC123"), 2, 7, -2, 20, ("Beta"), none⟩

/-- Observer whose handler raises. -/
def observadorFalho : Observador := ⟨("EmailObserver"), fun _ => .error ("boom")⟩

/-- Observer whose handler returns normally. -/
def observadorOk : Observador := ⟨("LogObserver"), fun _ => .ok ()⟩

/-- Registry with a failing observer registered before a succeeding one. -/
def registroExemplo : List (TipoEvento × List Observador) :=
  [(TipoEvento.estoqueBaixo, [observadorFalho, observadorOk])]

/-- Concrete low-stock event. -/
def eventoExemplo : Evento := .estoqueBaixo ⟨1, ("Dipirona"), 0, 10⟩

/-! ## Lemmas about the stable sort -/

theorem perm_inserirOrdenado (le : α → α → Bool) (a : α) (l : List α) :
    List.Perm (inserirOrdenado le a l) (a :: l) := by
  induction l with
  | nil => simp [inserirOrdenado]
  | cons b bs ih =>
      simp only [inserirOrdenado]
      split
      · exact List.Perm.refl _
      · exact (ih.cons b).trans (List.Perm.swap a b bs)

theorem perm_ordenar (le : α → α → Bool) (l : List α) :
    List.Perm (ordenar le l) l := by
  induction l with
  | nil => simp [ordenar]
  | cons x xs ih =>
      exact (perm_inserirOrdenado le x (ordenar le xs)).trans (ih.cons x)

theorem mem_ordenar {le : α → α → Bool} {l : List α} {x : α} :
    x ∈ ordenar le l ↔ x ∈ l :=
  (perm_ordenar le l).mem_iff

theorem pairwise_inserirOrdenado (le : α → α → Bool)
    (htot : ∀ x y, le x y = false → le y x = true)
    (htrans : ∀ x y z, le x y = true → le y z = true → le x z = true)
    (a : α) {l : List α} (h : l.Pairwise (fun x y => le x y = true)) :
    (inserirOrdenado le a l).Pairwise (fun x y => le x y = true) := by
  induction l with
  | nil => simp [inserirOrdenado]
  | cons b bs ih =>
      rcases List.pairwise_cons.mp h with ⟨hb, hbs⟩
      by_cases hc : le a b = true
      · simp only [inserirOrdenado, if_pos hc]
        refine List.pairwise_cons.mpr ⟨?_, h⟩
        intro x hx
        rcases List.mem_cons.mp hx with rfl | hx
        · exact hc
        · exact htrans a b x hc (hb x hx)
      · have hcf : le a b = false := Bool.not_eq_true _ ▸ eq_false_of_ne_true hc
        simp only [inserirOrdenado, if_neg hc]
        refine List.pairwise_cons.mpr ⟨?_, ih hbs⟩
        intro x hx
        rcases (perm_inserirOrdenado le a bs).mem_iff.mp hx with h1
        rcases List.mem_cons.mp h1 with rfl | hx2
        · exact htot _ _ hcf
        · exact hb x hx2

theorem pairwise_ordenar (le : α → α → Bool)
    (htot : ∀ x y, le x y = false → le y x = true)
    (htrans : ∀ x y z, le x y = true → le y z = true → le x z = true)
    (l : List α) :
    (ordenar le l).Pairwise (fun x y => le x y = true) := by
  induction l with
  | nil => simp [ordenar]
  | cons x xs ih => exact pairwise_inserirOrdenado le htot htrans x ih

/-! ## Lemmas about the ordered-dict embedding -/

theorem dictPut_chaves {lotes : List Lote} {l : Lote}
    (h : lotes.any (fun x => x.id == l.id) = true) :
    (dictPut lotes l).map Lote.id = lotes.map Lote.id := by
  unfold dictPut
  rw [if_pos h, List.map_map]
  apply List.map_congr_left
  intro x _
  by_cases hc : x.id == l.id
  · have he : x.id = l.id := eq_of_beq hc
    simp [he]
  · simp [Function.comp, hc]

theorem mem_dictPut {lotes : List Lote} {l x : Lote} (h : x ∈ dictPut lotes l) :
    x ∈ lotes ∨ x = l := by
  unfold dictPut at h
  split at h
  · rcases List.mem_map.mp h with ⟨y, hy, hxy⟩
    by_cases hc : y.id == l.id
    · rw [if_pos hc] at hxy
      exact Or.inr hxy.symm
    · rw [if_neg hc] at hxy
      exact Or.inl (hxy ▸ hy)
  · rcases List.mem_append.mp h with h1 | h2
    · exact Or.inl h1
    · exact Or.inr (List.mem_singleton.mp h2)

theorem dictPut_fresco {lotes : List Lote} {l : Lote}
    (h : lotes.any (fun x => x.id == l.id) = false) :
    dictPut lotes l = lotes ++ [l] := by
  unfold dictPut
  rw [if_neg]
  simp [h]

/-- Helper for the atualizar success case: a batch whose id is a key of the
dict is stored in place. -/
theorem atualizar_ok {repo : LoteRepositoryMemory} {l : Lote} {i : Int}
    (hid : l.id = some i)
    (h : repo.lotes.any (fun x => x.id == some i) = true) :
    repo.atualizar l =
      .ok (l, ⟨dictPut repo.lotes l, repo.proximo_id⟩) := by
  unfold LoteRepositoryMemory.atualizar
  rw [hid]
  simp [h]

/-! ## Sum bookkeeping -/

theorem soma_filtro_particao (p : Lote → Bool) (f : Lote → Int) (ls : List Lote) :
    ((ls.filter p).map f).sum + ((ls.filter (fun x => !(p x))).map f).sum =
      (ls.map f).sum := by
  induction ls with
  | nil => simp
  | cons a l ih =>
      by_cases hc : p a = true <;>
        simp [List.filter_cons, hc] <;> omega

/-! ## The depletion loop of the removal use case -/

/-- Unfolding of one successful step of `remover_dos_lotes`. -/
theorem remover_dos_lotes_passo {lote : Lote} {resto : List Lote}
    {restante : Int} {repo : LoteRepositoryMemory} {acc : List LoteAfetado}
    {i : Int} (hr : ¬restante = 0) (hid : lote.id = some i)
    (hany : repo.lotes.any (fun x => x.id == some i) = true) :
    remover_dos_lotes (lote :: resto) restante repo acc =
      remover_dos_lotes resto (restante - min restante lote.quantidade)
        ⟨dictPut repo.lotes
          { lote with quantidade := lote.quantidade - min restante lote.quantidade },
          repo.proximo_id⟩
        (acc ++ [⟨lote.id, lote.numero_lote, min restante lote.quantidade,
          lote.quantidade - min restante lote.quantidade⟩]) := by
  have hlbid :
      ({ lote with quantidade := lote.quantidade - min restante lote.quantidade } :
        Lote).id = some i := hid
  have hatual := atualizar_ok hlbid hany
  simp only [remover_dos_lotes]
  rw [if_neg (by simpa using hr), hatual]

/-- Main invariant of the depletion loop: when every walked batch has positive
quantity and lives in the repository, and the requested remainder is covered
by their total, the loop succeeds, the recorded per-batch removals add up to
exactly the remainder, the set of dict keys is untouched (no batch is
deleted), and no stored quantity goes negative. -/
theorem remover_dos_lotes_spec :
    ∀ (ls : List Lote) (restante : Int) (repo : LoteRepositoryMemory)
      (acc : List LoteAfetado),
      (∀ l ∈ ls, 0 < l.quantidade ∧ l.id ∈ repo.lotes.map Lote.id ∧
        l.id.isSome = true) →
      0 ≤ restante → restante ≤ (ls.map (·.quantidade)).sum →
      (∀ x ∈ repo.lotes, 0 ≤ x.quantidade) →
      ∃ afetados repo2,
        remover_dos_lotes ls restante repo acc = (.ok (acc ++ afetados), repo2) ∧
        (afetados.map (·.quantidade_removida)).sum = restante ∧
        repo2.lotes.map Lote.id = repo.lotes.map Lote.id ∧
        (∀ x ∈ repo2.lotes, 0 ≤ x.quantidade) := by
  intro ls
  induction ls with
  | nil =>
      intro restante repo acc _ h0 hsum hnn
      have hz : restante = 0 := by simpa using le_antisymm (by simpa using hsum) h0
      exact ⟨[], repo, by simp [remover_dos_lotes], by simp [hz], rfl, hnn⟩
  | cons lote resto ih =>
      intro restante repo acc hmem h0 hsum hnn
      obtain ⟨hpos, hkey, hsome⟩ := hmem lote (List.mem_cons_self _ _)
      by_cases hr : restante = 0
      · subst hr
        exact ⟨[], repo, by simp [remover_dos_lotes], by simp, rfl, hnn⟩
      · have hrpos : 0 < restante := lt_of_le_of_ne h0 (Ne.symm hr)
        obtain ⟨i, hi⟩ := Option.isSome_iff_exists.mp hsome
        have hqpos : 0 < min restante lote.quantidade := lt_min hrpos hpos
        have hql : min restante lote.quantidade ≤ lote.quantidade :=
          min_le_right _ _
        have hqr : min restante lote.quantidade ≤ restante := min_le_left _ _
        have hany : repo.lotes.any (fun x => x.id == some i) = true := by
          rw [List.any_eq_true]
          rcases List.mem_map.mp (hi ▸ hkey) with ⟨x, hx, hxid⟩
          exact ⟨x, hx, by simp [hxid]⟩
        have hpasso := @remover_dos_lotes_passo lote resto restante repo acc i
          hr hi hany
        have hanyLb : repo.lotes.any (fun x =>
            x.id == ({ lote with quantidade :=
              lote.quantidade - min restante lote.quantidade } : Lote).id) = true := by
          simpa [hi] using hany
        have hkeys2 :
            (dictPut repo.lotes
              { lote with quantidade :=
                lote.quantidade - min restante lote.quantidade }).map Lote.id =
              repo.lotes.map Lote.id := dictPut_chaves hanyLb
        have hnn2 : ∀ x ∈ dictPut repo.lotes
            { lote with quantidade :=
              lote.quantidade - min restante lote.quantidade },
            0 ≤ x.quantidade := by
          intro x hx
          rcases mem_dictPut hx with h1 | rfl
          · exact hnn x h1
          · exact sub_nonneg.mpr hql
        have hsr : 0 ≤ (resto.map (·.quantidade)).sum := by
          apply List.sum_nonneg
          intro v hv
          rcases List.mem_map.mp hv with ⟨m, hm, rfl⟩
          exact le_of_lt (hmem m (List.mem_cons_of_mem _ hm)).1
        have hsum2 : restante ≤ lote.quantidade + (resto.map (·.quantidade)).sum := by
          simpa using hsum
        have hmem2 : ∀ l ∈ resto, 0 < l.quantidade ∧
            l.id ∈ (dictPut repo.lotes
              { lote with quantidade :=
                lote.quantidade - min restante lote.quantidade }).map Lote.id ∧
            l.id.isSome = true := by
          intro m hm
          obtain ⟨p1, p2, p3⟩ := hmem m (List.mem_cons_of_mem _ hm)
          exact ⟨p1, hkeys2 ▸ p2, p3⟩
        obtain ⟨af, repo3, heq, hsum3, hkeys3, hnn3⟩ :=
          ih (restante - min restante lote.quantidade)
            ⟨dictPut repo.lotes
              { lote with quantidade :=
                lote.quantidade - min restante lote.quantidade },
              repo.proximo_id⟩
            (acc ++ [⟨lote.id, lote.numero_lote, min restante lote.quantidade,
              lote.quantidade - min restante lote.quantidade⟩])
            hmem2 (by omega) (by omega) hnn2
        refine ⟨⟨lote.id, lote.numero_lote, min restante lote.quantidade,
          lote.quantidade - min restante lote.quantidade⟩ :: af, repo3, ?_, ?_,
          hkeys3.trans hkeys2, hnn3⟩
        · rw [hpasso, heq]
          simp
        · simp only [List.map_cons, List.sum_cons, hsum3]
          omega

/-! ## Claims -/

/-- C1: the two stock-removal paths disagree on depletion order.  At the
spec's own A/B input (A expires in 10 days, B in 100, both qty 5, remove 7)
`RemoverEstoqueUseCase.execute` depletes by ascending expiry date (5 from A,
then 2 from B), but `EstoqueServiceMemory.registrar_saida` sorts by ascending
manufacture date and takes 5 from B — the batch expiring last — before
touching A, so the claimed expiry-date order does not hold for every
stock-removal operation. -/
theorem remocao_ordem_divergente :
    (removerEstoque medicamentosExemplo repoExemplo 0 1 7).1 =
      .ok ⟨1, ("Dipirona"), 7,
        [⟨some 1, ("LOTEA"), 5, 0⟩, ⟨some 2, ("LOTEB"), 2, 3⟩],
        3, 10, Status.ATENCAO⟩ ∧
    (registrarSaida repoExemplo 0 1 7 []).2.2 =
      [⟨TipoMovimentacao.SAIDA, 1, some 2, 5⟩,
       ⟨TipoMovimentacao.SAIDA, 1, some 1, 2⟩] ∧
    loteProximoVencimento.data_validade < loteVencimentoDistante.data_validade ∧
    loteVencimentoDistante.data_fabricacao < loteProximoVencimento.data_fabricacao ∧
    loteVencimentoDistante.id = some 2 :=
  ⟨rfl, rfl, by decide, by decide, rfl⟩

/-- C3: when the requested quantity exceeds the eligible availability and the
other preconditions hold, the removal fails with the insufficient-stock error
carrying the available and requested amounts, and the repository is returned
exactly as it was — the check precedes every batch update. -/
theorem remocao_insuficiente_sem_efeito (medicamentos : List Medicamento)
    (repo : LoteRepositoryMemory) (hoje medicamento_id quantidade : Int)
    (medicamento : Medicamento) (hq : 0 < quantidade)
    (hfind : buscar_medicamento_por_id medicamentos medicamento_id =
      some medicamento)
    (hins : ((lotes_ordenados_por_validade repo hoje medicamento_id).map
      (·.quantidade)).sum < quantidade) :
    removerEstoque medicamentos repo hoje medicamento_id quantidade =
      (.error (.estoqueInsuficiente
        ((lotes_ordenados_por_validade repo hoje medicamento_id).map
          (·.quantidade)).sum quantidade), repo) := by
  unfold removerEstoque
  rw [if_neg (by omega), hfind]
  simp only
  rw [if_pos hins]

/-- Instantiation of C3: removing 20 units when only 10 are eligible fails
with the amounts and leaves the two batches untouched. -/
theorem remocao_insuficiente_sem_efeito_instancia :
    removerEstoque medicamentosExemplo repoExemplo 0 1 20 =
      (.error (.estoqueInsuficiente
        ((lotes_ordenados_por_validade repoExemplo 0 1).map
          (·.quantidade)).sum 20), repoExemplo) :=
  remocao_insuficiente_sem_efeito medicamentosExemplo repoExemplo 0 1 20
    ⟨1, ("Dipirona"), ("dipirona sodica"), 10⟩ (by decide) rfl (by decide)

/-- C2: every successful removal records per-batch amounts that add up to
exactly the requested quantity, never drives a stored quantity negative, and
keeps every batch (by id) in the Ledger — a batch depleted to zero is updated
in place, not deleted. -/
theorem remocao_sucesso_exata (medicamentos : List Medicamento)
    (repo : LoteRepositoryMemory) (hoje medicamento_id quantidade : Int)
    (r : RemocaoResultado) (repo2 : LoteRepositoryMemory)
    (hids : ∀ l ∈ repo.lotes, l.id.isSome = true)
    (hnn : ∀ l ∈ repo.lotes, 0 ≤ l.quantidade)
    (hexec : removerEstoque medicamentos repo hoje medicamento_id quantidade =
      (.ok r, repo2)) :
    (r.lotes_afetados.map (·.quantidade_removida)).sum = quantidade ∧
    (∀ l ∈ repo2.lotes, 0 ≤ l.quantidade) ∧
    repo2.lotes.map Lote.id = repo.lotes.map Lote.id := by
  have hmem : ∀ l ∈ lotes_ordenados_por_validade repo hoje medicamento_id,
      0 < l.quantidade ∧ l.id ∈ repo.lotes.map Lote.id ∧ l.id.isSome = true := by
    intro l hl
    have hl2 : l ∈ lotes_disponiveis repo hoje medicamento_id :=
      mem_ordenar.mp hl
    rcases List.mem_filter.mp hl2 with ⟨hl3, hcond⟩
    have hl4 : l ∈ repo.lotes :=
      (List.mem_filter.mp hl3).1
    refine ⟨?_, List.mem_map_of_mem Lote.id hl4, hids l hl4⟩
    have := (Bool.and_eq_true _ _).mp hcond
    exact of_decide_eq_true this.1
  unfold removerEstoque at hexec
  split at hexec
  · simp [Prod.ext_iff] at hexec
  next hq =>
    split at hexec
    · simp [Prod.ext_iff] at hexec
    next medicamento hfind =>
      simp only at hexec
      split at hexec
      · simp [Prod.ext_iff] at hexec
      next hdisp =>
        split at hexec
        next e repo2x hloop => simp [Prod.ext_iff] at hexec
        next afetados repo2x hloop =>
          obtain ⟨af2, rp2, heq2, hsum2, hkeys2, hnn2⟩ :=
            remover_dos_lotes_spec
              (lotes_ordenados_por_validade repo hoje medicamento_id)
              quantidade repo [] hmem (by omega) (by omega) hnn
          rw [heq2] at hloop
          obtain ⟨hafe, hrepo⟩ := Prod.mk.injEq _ _ _ _ ▸ hloop
          obtain ⟨hr, hrepo2⟩ := Prod.mk.injEq _ _ _ _ ▸ hexec
          have hafe2 : af2 = afetados := by simpa using hafe
          have hrec := (Except.ok.injEq _ _).mp hr
          have hlr : r.lotes_afetados = afetados := by rw [← hrec]
          rw [← hrepo2, ← hrepo]
          refine ⟨?_, hnn2, hkeys2⟩
          rw [hlr, ← hafe2]
          exact hsum2

/-- Instantiation of C2: removing 7 from the two-batch ledger records 5 + 2 =
7, leaves no negative quantity, and keeps both batch ids in the ledger. -/
theorem remocao_sucesso_exata_instancia :
    (([⟨some 1, ("LOTEA"), 5, 0⟩, ⟨some 2, ("LOTEB"), 2, 3⟩] :
        List LoteAfetado).map (·.quantidade_removida)).sum = 7 ∧
    (∀ l ∈ (⟨[⟨("LOTEA"), 1, 0, -1, 10, ("Fornecedor A"), some 1⟩,
        ⟨("LOTEB"), 1, 3, -30, 100, ("Fornecedor B"), some 2⟩], 3⟩ :
        LoteRepositoryMemory).lotes, 0 ≤ l.quantidade) ∧
    (⟨[⟨("LOTEA"), 1, 0, -1, 10, ("Fornecedor A"), some 1⟩,
        ⟨("LOTEB"), 1, 3, -30, 100, ("Fornecedor B"), some 2⟩], 3⟩ :
        LoteRepositoryMemory).lotes.map Lote.id =
      repoExemplo.lotes.map Lote.id :=
  remocao_sucesso_exata medicamentosExemplo repoExemplo 0 1 7
    ⟨1, ("Dipirona"), 7, [⟨some 1, ("LOTEA"), 5, 0⟩, ⟨some 2, ("LOTEB"), 2, 3⟩],
      3, 10, Status.ATENCAO⟩
    ⟨[⟨("LOTEA"), 1, 0, -1, 10, ("Fornecedor A"), some 1⟩,
      ⟨("LOTEB"), 1, 3, -30, 100, ("Fornecedor B"), some 2⟩], 3⟩
    (by decide) (by decide) rfl

/-- C4 counterexample: adding 5 units while an expired batch of 3 sits in the
ledger makes the use case report `estoque_atual = 8` (the all-batches sum) and
status OK against minimum 7, whereas the claimed availability
(expiry strictly after today) is 5, which is below the minimum — so the claim's
reported stock (availability) and status (ATTENTION) both disagree with the
code. -/
theorem adicao_reporta_total_contraexemplo :
    (adicionarEstoque medicamentosMinimoSete repoComVencido 0 1 5 ("NOVO1")
      (-1) 10 ("Acme")).1 =
      .ok ⟨1, ("Dipirona"), some 2, ("NOVO1"), 5, 8, 7, Status.OK⟩ ∧
    estoque_disponivel_nao_vencido
      (adicionarEstoque medicamentosMinimoSete repoComVencido 0 1 5 ("NOVO1")
        (-1) 10 ("Acme")).2 0 1 = 5 ∧
    (8 : Int) ≠ 5 ∧ ¬(7 : Int) ≤ 5 ∧ Status.OK ≠ Status.ATENCAO :=
  ⟨rfl, rfl, by decide, by decide, by decide⟩

/-- C4 (amended): a successful AddStock reports as current stock the sum of
quantities over ALL batches of the medication (expired ones included), and the
reported status is OK when that sum reaches the minimum and ATENCAO — never
any other status — when it is below the minimum. -/
theorem adicao_reporta_total (medicamentos : List Medicamento)
    (repo : LoteRepositoryMemory)
    (hoje medicamento_id quantidade data_fabricacao data_validade : Int)
    (numero_lote fornecedor : String) (r : AdicaoResultado)
    (repo2 : LoteRepositoryMemory)
    (hexec : adicionarEstoque medicamentos repo hoje medicamento_id quantidade
      numero_lote data_fabricacao data_validade fornecedor = (.ok r, repo2)) :
    ∃ medicamento,
      buscar_medicamento_por_id medicamentos medicamento_id = some medicamento ∧
      r.estoque_atual =
        ((repo2.buscar_por_medicamento medicamento_id).map (·.quantidade)).sum ∧
      r.status = (if r.estoque_atual < medicamento.estoque_minimo then
        Status.ATENCAO else Status.OK) := by
  unfold adicionarEstoque at hexec
  split at hexec
  · simp [Prod.ext_iff] at hexec
  next hq =>
    split at hexec
    · simp [Prod.ext_iff] at hexec
    next medicamento hfind =>
      simp only at hexec
      split at hexec
      · simp [Prod.ext_iff] at hexec
      next hvf =>
        split at hexec
        · simp [Prod.ext_iff] at hexec
        next hvh =>
          split at hexec
          next e hmk => simp [Prod.ext_iff] at hexec
          next lote hmk =>
            refine ⟨medicamento, hfind, ?_⟩
            obtain ⟨hr, hrepo2⟩ := Prod.mk.injEq _ _ _ _ ▸ hexec
            have hrec := (Except.ok.injEq _ _).mp hr
            have hest : r.estoque_atual =
                ((((repo.salvar lote).2).buscar_por_medicamento
                  medicamento_id).map (·.quantidade)).sum := by
              rw [← hrec]
            have hstat : r.status =
                (if ((((repo.salvar lote).2).buscar_por_medicamento
                    medicamento_id).map (·.quantidade)).sum <
                    medicamento.estoque_minimo then Status.ATENCAO
                  else Status.OK) := by
              rw [← hrec]
            rw [← hrepo2]
            refine ⟨hest, ?_⟩
            rw [hest]
            exact hstat

/-- Instantiation of C4 (amended) at the expired-batch ledger against minimum
10: the report is 8 = 3 + 5 (all batches), which is below the minimum, and the
status is accordingly ATENCAO. -/
theorem adicao_reporta_total_instancia :
    ∃ medicamento,
      buscar_medicamento_por_id medicamentosExemplo 1 = some medicamento ∧
      (⟨1, ("Dipirona"), some 2, ("NOVO1"), 5, 8, 10, Status.ATENCAO⟩ :
        AdicaoResultado).estoque_atual =
        (((⟨[⟨("VELHO1"), 1, 3, -100, -10, ("Acme"), some 1⟩,
            ⟨("NOVO1"), 1, 5, -1, 10, ("Acme"), some 2⟩], 3⟩ :
          LoteRepositoryMemory).buscar_por_medicamento 1).map
            (·.quantidade)).sum ∧
      (⟨1, ("Dipirona"), some 2, ("NOVO1"), 5, 8, 10, Status.ATENCAO⟩ :
        AdicaoResultado).status =
        (if (⟨1, ("Dipirona"), some 2, ("NOVO1"), 5, 8, 10, Status.ATENCAO⟩ :
          AdicaoResultado).estoque_atual < medicamento.estoque_minimo then
          Status.ATENCAO else Status.OK) :=
  adicao_reporta_total medicamentosExemplo repoComVencido 0 1 5 (-1) 10
    ("NOVO1") ("Acme")
    ⟨1, ("Dipirona"), some 2, ("NOVO1"), 5, 8, 10, Status.ATENCAO⟩
    ⟨[⟨("VELHO1"), 1, 3, -100, -10, ("Acme"), some 1⟩,
      ⟨("NOVO1"), 1, 5, -1, 10, ("Acme"), some 2⟩], 3⟩ (by rfl)

/-- C5 counterexample: a batch expiring exactly today (quantity 5) is counted
as available by `consultar_estoque_atual` (which uses `esta_vencido`, i.e.
`today > expiry`), while the claim's "expiry strictly after today" sum is 0;
the claimed expired complement (5) likewise disagrees with the reported 0. -/
theorem consulta_estoque_contraexemplo :
    (consultarEstoqueAtual repoLoteHoje 0 1).estoque_disponivel = 5 ∧
    (((repoLoteHoje.buscar_por_medicamento 1).filter (fun l =>
      decide (l.data_validade > 0))).map (·.quantidade)).sum = 0 ∧
    (consultarEstoqueAtual repoLoteHoje 0 1).estoque_vencido = 0 ∧
    (5 : Int) ≠ 0 :=
  ⟨rfl, rfl, rfl, by decide⟩

/-- C5 (amended): the availability query reports as available the sum over
batches with expiry ON OR AFTER today, as expired the sum over batches with
expiry strictly before today (the complement, by `esta_vencido`), the two add
up to the total, and an unknown medication id yields all zeros rather than an
error. -/
theorem consulta_estoque_caracterizacao (repo : LoteRepositoryMemory)
    (hoje medicamento_id : Int) :
    (consultarEstoqueAtual repo hoje medicamento_id).estoque_disponivel =
      (((repo.buscar_por_medicamento medicamento_id).filter (fun l =>
        decide (hoje ≤ l.data_validade))).map (·.quantidade)).sum ∧
    (consultarEstoqueAtual repo hoje medicamento_id).estoque_vencido =
      (((repo.buscar_por_medicamento medicamento_id).filter (fun l =>
        decide (l.data_validade < hoje))).map (·.quantidade)).sum ∧
    (consultarEstoqueAtual repo hoje medicamento_id).estoque_disponivel +
      (consultarEstoqueAtual repo hoje medicamento_id).estoque_vencido =
      (consultarEstoqueAtual repo hoje medicamento_id).estoque_total ∧
    ((∀ l ∈ repo.lotes, ¬l.medicamento_id = medicamento_id) →
      consultarEstoqueAtual repo hoje medicamento_id = ⟨0, 0, 0, 0⟩) := by
  refine ⟨?_, rfl, ?_, ?_⟩
  · have hfc : List.filter (fun l => !l.esta_vencido hoje)
        (repo.buscar_por_medicamento medicamento_id) =
        List.filter (fun l => decide (hoje ≤ l.data_validade))
          (repo.buscar_por_medicamento medicamento_id) := by
      apply List.filter_congr
      intro l _
      by_cases h : hoje ≤ l.data_validade <;> simp [Lote.esta_vencido, h]
      omega
    simp only [consultarEstoqueAtual]
    rw [hfc]
  · have hpart := soma_filtro_particao (fun l => l.esta_vencido hoje)
      (·.quantidade) (repo.buscar_por_medicamento medicamento_id)
    simp only [consultarEstoqueAtual]
    omega
  · intro h
    have hvazio : repo.buscar_por_medicamento medicamento_id = [] := by
      unfold LoteRepositoryMemory.buscar_por_medicamento
      rw [List.filter_eq_nil_iff]
      intro l hl
      simpa using h l hl
    simp [consultarEstoqueAtual, hvazio]

/-- Instantiation of C5 (amended) at the expiry-today ledger. -/
theorem consulta_estoque_caracterizacao_instancia :
    (consultarEstoqueAtual repoLoteHoje 0 1).estoque_disponivel =
      (((repoLoteHoje.buscar_por_medicamento 1).filter (fun l =>
        decide ((0 : Int) ≤ l.data_validade))).map (·.quantidade)).sum ∧
    (consultarEstoqueAtual repoLoteHoje 0 1).estoque_vencido =
      (((repoLoteHoje.buscar_por_medicamento 1).filter (fun l =>
        decide (l.data_validade < 0))).map (·.quantidade)).sum ∧
    (consultarEstoqueAtual repoLoteHoje 0 1).estoque_disponivel +
      (consultarEstoqueAtual repoLoteHoje 0 1).estoque_vencido =
      (consultarEstoqueAtual repoLoteHoje 0 1).estoque_total ∧
    ((∀ l ∈ repoLoteHoje.lotes, ¬l.medicamento_id = 1) →
      consultarEstoqueAtual repoLoteHoje 0 1 = ⟨0, 0, 0, 0⟩) :=
  consulta_estoque_caracterizacao repoLoteHoje 0 1

/-- C6: a valid AddStock appends exactly one new batch (with the next id) to
the ledger, leaves every pre-existing batch untouched, succeeds, and raises
the non-expired availability by exactly the added quantity. -/
theorem adicao_valida_incrementa (medicamentos : List Medicamento)
    (repo : LoteRepositoryMemory)
    (hoje medicamento_id quantidade data_fabricacao data_validade : Int)
    (numero_lote fornecedor : String) (medicamento : Medicamento)
    (hq : 0 < quantidade)
    (hfind : buscar_medicamento_por_id medicamentos medicamento_id =
      some medicamento)
    (hfabval : data_fabricacao < data_validade)
    (hvalfut : hoje < data_validade)
    (hfab : data_fabricacao ≤ hoje)
    (hnl1 : stringEmBranco numero_lote = false)
    (hnl2 : ¬numero_lote.length < 3)
    (hf1 : stringEmBranco fornecedor = false)
    (hf2 : ¬fornecedor.length < 3)
    (hwf : ∀ l ∈ repo.lotes, ∀ i, l.id = some i → i < repo.proximo_id) :
    (adicionarEstoque medicamentos repo hoje medicamento_id quantidade
      numero_lote data_fabricacao data_validade fornecedor).2.lotes =
      repo.lotes ++ [⟨numero_lote, medicamento_id, quantidade, data_fabricacao,
        data_validade, fornecedor, some repo.proximo_id⟩] ∧
    (adicionarEstoque medicamentos repo hoje medicamento_id quantidade
      numero_lote data_fabricacao data_validade fornecedor).1.isOk = true ∧
    estoque_disponivel_nao_vencido
      (adicionarEstoque medicamentos repo hoje medicamento_id quantidade
        numero_lote data_fabricacao data_validade fornecedor).2
      hoje medicamento_id =
      estoque_disponivel_nao_vencido repo hoje medicamento_id + quantidade := by
  have hmk : mkLote hoje numero_lote medicamento_id quantidade data_fabricacao
      data_validade fornecedor =
      .ok ⟨numero_lote, medicamento_id, quantidade, data_fabricacao,
        data_validade, fornecedor, none⟩ := by
    unfold mkLote
    rw [if_neg (by simp [hnl1]), if_neg hnl2, if_neg (by omega),
      if_neg (by omega), if_neg (by omega), if_neg (by omega),
      if_neg (by simp [hf1]), if_neg hf2]
  have hfresh : repo.lotes.any
      (fun x => x.id == some repo.proximo_id) = false := by
    rw [List.any_eq_false]
    intro x hx
    simp only [beq_iff_eq]
    intro hcon
    exact absurd (hwf x hx repo.proximo_id hcon) (lt_irrefl _)
  have hsalvar : repo.salvar ⟨numero_lote, medicamento_id, quantidade,
      data_fabricacao, data_validade, fornecedor, none⟩ =
      (⟨numero_lote, medicamento_id, quantidade, data_fabricacao,
        data_validade, fornecedor, some repo.proximo_id⟩,
       ⟨repo.lotes ++ [⟨numero_lote, medicamento_id, quantidade,
        data_fabricacao, data_validade, fornecedor, some repo.proximo_id⟩],
        repo.proximo_id + 1⟩) := by
    unfold LoteRepositoryMemory.salvar
    simp only
    rw [dictPut_fresco hfresh]
  have hexec : adicionarEstoque medicamentos repo hoje medicamento_id
      quantidade numero_lote data_fabricacao data_validade fornecedor =
      (.ok ⟨medicamento.id, medicamento.nome, some repo.proximo_id,
        numero_lote, quantidade,
        ((((⟨repo.lotes ++ [⟨numero_lote, medicamento_id, quantidade,
          data_fabricacao, data_validade, fornecedor,
          some repo.proximo_id⟩], repo.proximo_id + 1⟩ :
          LoteRepositoryMemory).buscar_por_medicamento medicamento_id)).map
            (·.quantidade)).sum,
        medicamento.estoque_minimo,
        if ((((⟨repo.lotes ++ [⟨numero_lote, medicamento_id, quantidade,
          data_fabricacao, data_validade, fornecedor,
          some repo.proximo_id⟩], repo.proximo_id + 1⟩ :
          LoteRepositoryMemory).buscar_por_medicamento medicamento_id)).map
            (·.quantidade)).sum < medicamento.estoque_minimo then
          Status.ATENCAO else Status.OK⟩,
       ⟨repo.lotes ++ [⟨numero_lote, medicamento_id, quantidade,
        data_fabricacao, data_validade, fornecedor, some repo.proximo_id⟩],
        repo.proximo_id + 1⟩) := by
    unfold adicionarEstoque
    rw [if_neg (by omega), hfind]
    simp only
    rw [if_neg (by omega), if_neg (by omega), hmk]
    simp only
    rw [hsalvar]
  refine ⟨by rw [hexec], by rw [hexec]; rfl, ?_⟩
  rw [hexec]
  unfold estoque_disponivel_nao_vencido LoteRepositoryMemory.buscar_por_medicamento
  simp only [List.filter_append, List.map_append, List.sum_append]
  have hnovo : (List.map (fun x => x.quantidade)
      (List.filter (fun l => decide (l.data_validade > hoje))
        (List.filter (fun l => l.medicamento_id == medicamento_id)
          [(⟨numero_lote, medicamento_id, quantidade, data_fabricacao,
            data_validade, fornecedor, some repo.proximo_id⟩ : Lote)]))).sum =
      quantidade := by
    simp [hvalfut]
  rw [hnovo]

/-- Instantiation of C6: adding 20 units (expiry in 50 days) to the two-batch
ledger appends exactly one batch with id 3 and raises availability by 20. -/
theorem adicao_valida_incrementa_instancia :
    (adicionarEstoque medicamentosExemplo repoExemplo 0 1 20 ("LOTEC") (-1) 50
      ("Acme")).2.lotes =
      repoExemplo.lotes ++ [⟨("LOTEC"), 1, 20, -1, 50, ("Acme"), some 3⟩] ∧
    (adicionarEstoque medicamentosExemplo repoExemplo 0 1 20 ("LOTEC") (-1) 50
      ("Acme")).1.isOk = true ∧
    estoque_disponivel_nao_vencido
      (adicionarEstoque medicamentosExemplo repoExemplo 0 1 20 ("LOTEC") (-1)
        50 ("Acme")).2 0 1 =
      estoque_disponivel_nao_vencido repoExemplo 0 1 + 20 :=
  adicao_valida_incrementa medicamentosExemplo repoExemplo 0 1 20 (-1) 50
    ("LOTEC") ("Acme") ⟨1, ("Dipirona"), ("dipirona sodica"), 10⟩
    (by decide) rfl (by decide) (by decide) (by decide) (by decide) (by decide)
    (by decide) (by decide)
    (by
      intro l hl i hi
      rcases List.mem_cons.mp hl with rfl | hl2
      · have h1 : i = 1 := by
          simpa [loteProximoVencimento] using hi.symm
        rw [h1]
        decide
      · rcases List.mem_cons.mp hl2 with rfl | hl3
        · have h2 : i = 2 := by
            simpa [loteVencimentoDistante] using hi.symm
          rw [h2]
          decide
        · simp [repoExemplo] at hl3)

/-- C7 counterexample: with horizon 5 the batch expiring today (daysLeft = 0)
satisfies the claimed window 0 ≤ daysLeft ≤ 5 and its medication exists, yet
the expiring-soon monitor returns an empty list — its filter demands
`expiry > today`, excluding daysLeft = 0. -/
theorem vencendo_hoje_excluido_contraexemplo :
    (monitorarProdutosVencendo medicamentosExemplo repoLoteHoje 0 5).1.lotes =
      [] ∧
    loteVenceHoje ∈ repoLoteHoje.lotes ∧
    (0 : Int) ≤ loteVenceHoje.data_validade - 0 ∧
    loteVenceHoje.data_validade - 0 ≤ 5 ∧
    (buscar_medicamento_por_id medicamentosExemplo
      loteVenceHoje.medicamento_id).isSome = true :=
  ⟨rfl, by decide, by decide, by decide, rfl⟩

/-- Projection of the expiring-soon collection loop: the kept entries are
exactly the batches with `today < expiry ≤ limit` whose medication resolves. -/
theorem monitorar_coleta_lotes (medicamentos : List Medicamento)
    (hoje data_limite : Int) :
    ∀ ls : List Lote,
      (monitorar_coleta medicamentos hoje data_limite ls).1.map (·.lote) =
        ls.filter (fun l => decide (hoje < l.data_validade) &&
          decide (l.data_validade ≤ data_limite) &&
          (buscar_medicamento_por_id medicamentos l.medicamento_id).isSome) := by
  intro ls
  induction ls with
  | nil => rfl
  | cons lote resto ih =>
      by_cases h1 : lote.data_validade ≤ hoje
      · have hfalso : ¬hoje < lote.data_validade := by omega
        simp only [monitorar_coleta, if_pos h1, List.filter_cons]
        simp [hfalso, ih]
      · by_cases h2 : lote.data_validade ≤ data_limite
        · rcases hfind : buscar_medicamento_por_id medicamentos
            lote.medicamento_id with _ | medicamento
          · simp only [monitorar_coleta, if_neg h1, if_pos h2, hfind,
              List.filter_cons]
            simp [hfind, ih]
          · simp only [monitorar_coleta, if_neg h1, if_pos h2, hfind,
              List.filter_cons]
            have hv : hoje < lote.data_validade := by omega
            simp [hfind, hv, h2, ih]
        · simp only [monitorar_coleta, if_neg h1, if_neg h2, List.filter_cons]
          simp [h2, ih]

/-- C7 (amended): the repository query `listar_vencendo_em` returns exactly
the batches with 0 ≤ daysLeft ≤ d (a batch expiring today included), while
the expiring-soon monitor keeps, up to its sort, exactly the batches with
0 < daysLeft ≤ d whose medication exists — it excludes a batch expiring
today. -/
theorem vencendo_caracterizacao (medicamentos : List Medicamento)
    (repo : LoteRepositoryMemory) (hoje dias : Int) :
    (∀ l : Lote, l ∈ repo.listar_vencendo_em hoje dias ↔
      l ∈ repo.lotes ∧ 0 ≤ l.data_validade - hoje ∧
        l.data_validade - hoje ≤ dias) ∧
    ((monitorarProdutosVencendo medicamentos repo hoje dias).1.lotes.map
      (·.lote)).Perm
      (repo.lotes.filter (fun l => decide (hoje < l.data_validade) &&
        decide (l.data_validade ≤ hoje + dias) &&
        (buscar_medicamento_por_id medicamentos l.medicamento_id).isSome)) := by
  constructor
  · intro l
    simp only [LoteRepositoryMemory.listar_vencendo_em, List.mem_filter,
      Bool.and_eq_true, decide_eq_true_eq]
    constructor
    · rintro ⟨hmem, hle, hge⟩
      exact ⟨hmem, by omega, by omega⟩
    · rintro ⟨hmem, hge, hle⟩
      exact ⟨hmem, by omega, by omega⟩
  · unfold monitorarProdutosVencendo
    simp only
    refine ((perm_ordenar _ _).map _).trans ?_
    rw [monitorar_coleta_lotes]
    exact List.Perm.refl _

/-- The dispatch loop records one outcome per observer, in order. -/
theorem notificar_observers_map (evento : Evento) :
    ∀ observers : List Observador,
      notificar_observers evento observers =
        observers.map (fun observador => resultadoDe observador evento) := by
  intro observers
  induction observers with
  | nil => rfl
  | cons observador resto ih =>
      simp only [notificar_observers, List.map_cons, ih]
      rfl

/-- C8: dispatch is total — it returns the per-observer outcome list instead
of propagating any failure.  Every observer registered for the event's kind is
invoked, in registration order, each outcome being exactly its own handler's
result (so one observer raising never suppresses the rest), and with zero
registered observers the call is a no-op returning the empty trace. -/
theorem notificacao_caracterizada
    (registro : List (TipoEvento × List Observador)) (evento : Evento) :
    notificar registro evento =
      (observersPara registro evento.tipo).map
        (fun observador => resultadoDe observador evento) ∧
    (observersPara registro evento.tipo = [] →
      notificar registro evento = []) := by
  have hmap := notificar_observers_map evento
    (observersPara registro evento.tipo)
  constructor
  · unfold notificar
    by_cases h : (observersPara registro evento.tipo).isEmpty
    · have hnil : observersPara registro evento.tipo = [] :=
        List.isEmpty_iff.mp h
      simp [h, hnil]
    · simp only [h, Bool.false_eq_true, if_false]
      exact hmap
  · intro h
    unfold notificar
    simp [h]

/-- Instantiation of C8: with a raising observer registered before a normal
one, dispatch still returns both outcomes in order. -/
theorem notificacao_caracterizada_instancia :
    notificar registroExemplo eventoExemplo =
      (observersPara registroExemplo eventoExemplo.tipo).map
        (fun observador => resultadoDe observador eventoExemplo) ∧
    (observersPara registroExemplo eventoExemplo.tipo = [] →
      notificar registroExemplo eventoExemplo = []) :=
  notificacao_caracterizada registroExemplo eventoExemplo

/-- C9 counterexample: two distinct batches carrying the same lot number
"ABC123" both pass the entity validation and both enter the Ledger as
separate records (ids 1 and 2) — lot-number uniqueness is not enforced. -/
theorem numero_lote_duplicado_contraexemplo :
    mkLote 0 ("ABC123") 1 5 (-1) 10 ("Acme") = .ok loteDuplicado1 ∧
    mkLote 0 ("ABC123") 2 7 (-2) 20 ("Beta") = .ok loteDuplicado2 ∧
    ((((⟨[], 1⟩ : LoteRepositoryMemory).salvar loteDuplicado1).2.salvar
      loteDuplicado2).2).lotes.map Lote.numero_lote =
      [("ABC123"), ("ABC123")] ∧
    ((((⟨[], 1⟩ : LoteRepositoryMemory).salvar loteDuplicado1).2.salvar
      loteDuplicado2).2).lotes.map Lote.id = [some 1, some 2] :=
  ⟨rfl, rfl, rfl, rfl⟩

/-- C9 (amended): every batch accepted by the entity validation has a lot
number of at least 3 characters that is not all blank; uniqueness across the
Ledger is NOT enforced (see the counterexample), duplicates being kept as
distinct records. -/
theorem lote_aceito_numero_valido (hoje : Int) (numero_lote : String)
    (medicamento_id quantidade data_fabricacao data_validade : Int)
    (fornecedor : String) (lote : Lote)
    (h : mkLote hoje numero_lote medicamento_id quantidade data_fabricacao
      data_validade fornecedor = .ok lote) :
    3 ≤ lote.numero_lote.length ∧ stringEmBranco lote.numero_lote = false := by
  unfold mkLote at h
  split_ifs at h with h1 h2 h3 h4 h5 h6 h7 h8
  have hrec := (Except.ok.injEq _ _).mp h
  rw [← hrec]
  constructor
  · show 3 ≤ numero_lote.length
    omega
  · show stringEmBranco numero_lote = false
    simpa using h1

/-- Instantiation of C9 (amended): the accepted batch with lot number
"ABC123" indeed has length ≥ 3 and is not blank. -/
theorem lote_aceito_numero_valido_instancia :
    3 ≤ loteDuplicado1.numero_lote.length ∧
    stringEmBranco loteDuplicado1.numero_lote = false :=
  lote_aceito_numero_valido 0 ("ABC123") 1 5 (-1) 10 ("Acme") loteDuplicado1
    (by rfl)

/-- The alert comparison is total. -/
theorem ordemAlerta_total (a b : Alerta) (h : ordemAlerta a b = false) :
    ordemAlerta b a = true := by
  simp only [ordemAlerta, Bool.or_eq_false_iff, Bool.and_eq_false_iff,
    decide_eq_false_iff_not, Bool.or_eq_true, Bool.and_eq_true,
    decide_eq_true_eq] at h ⊢
  omega

/-- The alert comparison is transitive. -/
theorem ordemAlerta_trans (a b c : Alerta) (hab : ordemAlerta a b = true)
    (hbc : ordemAlerta b c = true) : ordemAlerta a c = true := by
  simp only [ordemAlerta, Bool.or_eq_true, Bool.and_eq_true,
    decide_eq_true_eq] at hab hbc ⊢
  omega

/-- Every alert produced by the scan loop is either CRITICO with priority 1
and shortfall equal to the full minimum, or ATENCAO with priority 2. -/
theorem varredura_status_fatos (repo : LoteRepositoryMemory) (hoje : Int) :
    ∀ medicamentos : List Medicamento,
      ∀ a ∈ (verificar_estoque_baixo_varredura repo hoje medicamentos).1,
        a.status = Status.CRITICO ∧ a.prioridade = 1 ∨
        a.status = Status.ATENCAO ∧ a.prioridade = 2 := by
  intro medicamentos
  induction medicamentos with
  | nil =>
      intro a ha
      simp [verificar_estoque_baixo_varredura] at ha
  | cons medicamento resto ih =>
      intro a ha
      simp only [verificar_estoque_baixo_varredura] at ha
      split at ha
      · simp only [List.mem_cons] at ha
        rcases ha with rfl | ha2
        · exact Or.inl ⟨rfl, rfl⟩
        · exact ih a ha2
      · split at ha
        · simp only [List.mem_cons] at ha
          rcases ha with rfl | ha2
          · exact Or.inr ⟨rfl, rfl⟩
          · exact ih a ha2
        · exact ih a ha

/-- The scan emits events and alerts in lockstep: same medications, in the
same (scan) order. -/
theorem varredura_eventos_ids (repo : LoteRepositoryMemory) (hoje : Int) :
    ∀ medicamentos : List Medicamento,
      (verificar_estoque_baixo_varredura repo hoje medicamentos).2.map
        (·.medicamento_id) =
      (verificar_estoque_baixo_varredura repo hoje medicamentos).1.map
        (·.medicamento_id) := by
  intro medicamentos
  induction medicamentos with
  | nil => rfl
  | cons medicamento resto ih =>
      simp only [verificar_estoque_baixo_varredura]
      split
      · simpa using ih
      · split
        · simpa using ih
        · exact ih

/-- C10: the low-stock report is sorted so that no ATENCAO alert precedes a
CRITICO alert, alerts of equal status come in non-increasing shortfall order,
and exactly one low-stock event is emitted per listed medication (the event
list is a permutation of the alert list on medication ids, hence of equal
length). -/
theorem estoque_baixo_ordenado (medicamentos : List Medicamento)
    (repo : LoteRepositoryMemory) (hoje : Int) :
    (verificarEstoqueBaixo medicamentos repo hoje).1.Pairwise
      (fun a b => a.status = Status.ATENCAO → ¬b.status = Status.CRITICO) ∧
    (verificarEstoqueBaixo medicamentos repo hoje).1.Pairwise
      (fun a b => a.status = b.status → b.diferenca ≤ a.diferenca) ∧
    ((verificarEstoqueBaixo medicamentos repo hoje).2.map
      (·.medicamento_id)).Perm
      ((verificarEstoqueBaixo medicamentos repo hoje).1.map
        (·.medicamento_id)) ∧
    (verificarEstoqueBaixo medicamentos repo hoje).2.length =
      (verificarEstoqueBaixo medicamentos repo hoje).1.length := by
  have hfatos : ∀ a ∈ (verificarEstoqueBaixo medicamentos repo hoje).1,
      a.status = Status.CRITICO ∧ a.prioridade = 1 ∨
      a.status = Status.ATENCAO ∧ a.prioridade = 2 := by
    intro a ha
    exact varredura_status_fatos repo hoje medicamentos a (mem_ordenar.mp ha)
  have hpw : (verificarEstoqueBaixo medicamentos repo hoje).1.Pairwise
      (fun a b => ordemAlerta a b = true) :=
    pairwise_ordenar ordemAlerta
      (fun x y hxy => ordemAlerta_total x y hxy)
      (fun x y z => ordemAlerta_trans x y z) _
  have hperm : ((verificarEstoqueBaixo medicamentos repo hoje).2.map
      (·.medicamento_id)).Perm
      ((verificarEstoqueBaixo medicamentos repo hoje).1.map
        (·.medicamento_id)) := by
    unfold verificarEstoqueBaixo
    simp only
    rw [varredura_eventos_ids]
    exact ((perm_ordenar _ _).map _).symm
  refine ⟨?_, ?_, hperm, by simpa using hperm.length_eq⟩
  · refine hpw.imp_of_mem ?_
    intro a b ha hb hle hA hC
    rcases hfatos a ha with ⟨hsa, hpa⟩ | ⟨hsa, hpa⟩
    · rw [hsa] at hA
      exact Status.noConfusion hA
    · rcases hfatos b hb with ⟨hsb, hpb⟩ | ⟨hsb, hpb⟩
      · simp only [ordemAlerta, hpa, hpb, Bool.or_eq_true, Bool.and_eq_true,
          decide_eq_true_eq] at hle
        omega
      · rw [hsb] at hC
        exact Status.noConfusion hC
  · refine hpw.imp_of_mem ?_
    intro a b ha hb hle hst
    rcases hfatos a ha with ⟨hsa, hpa⟩ | ⟨hsa, hpa⟩ <;>
      rcases hfatos b hb with ⟨hsb, hpb⟩ | ⟨hsb, hpb⟩
    · simp only [ordemAlerta, hpa, hpb, Bool.or_eq_true, Bool.and_eq_true,
        decide_eq_true_eq] at hle
      omega
    · rw [hsa, hsb] at hst
      exact Status.noConfusion hst
    · rw [hsa, hsb] at hst
      exact Status.noConfusion hst
    · simp only [ordemAlerta, hpa, hpb, Bool.or_eq_true, Bool.and_eq_true,
        decide_eq_true_eq] at hle
      omega

end AlleFarma
